import Mathlib

/-
Shallow embedding of the live-listing subsystem of the snap-it repository
(src/snap_it/snap_it/apps/inventory/{models.py, signals.py, admin.py,
api/views.py}).  Merchants, inventories, items and listings are identified
by natural numbers (UUIDs and auto ids abstracted to Nat).  The relational
store is a record of lists of rows.  Python exceptions are modelled by an
explicit error component: an operation returns the database state that is
committed when the exception escapes (Django autocommit persists every
statement executed before the raise, while transaction.atomic blocks roll
back to their savepoint).
-/

namespace SnapIt

/-- Python exceptions that the embedded operations can raise. -/
inductive PyErr
  | nameError
  | doesNotExist
  | multipleObjectsReturned
deriving DecidableEq, Repr

/-- Row of the Inventory relation (models.py:15-31).  The listings field
is the display-only many-to-many Inventory.listings (models.py:20), kept
because the admin bulk-upload view clears and extends it. -/
structure Inventory where
  pk : Nat
  merchant : Nat
  inventory_name : String
  listings_m2m : List Nat
deriving DecidableEq, Repr

/-- Row of the Item relation (models.py:36-57); only the fields the
inventory views consult are kept. -/
structure Item where
  item_id : Nat
  item_name : String
deriving DecidableEq, Repr

/-- Row of the Listing relation (models.py:62-83). -/
structure Listing where
  pk : Nat
  inventory : Nat
  item : Nat
  price : Int
  promo_start_date : Option Nat
  promo_end_date : Option Nat
  is_live : Bool
  is_active : Bool
deriving DecidableEq, Repr

/-- An in-memory Listing instance about to be saved; pk = none models a
fresh instance whose AutoField primary key is assigned on insert. -/
structure ListingInst where
  pk : Option Nat
  inventory : Nat
  item : Nat
  price : Int
  promo_start_date : Option Nat
  promo_end_date : Option Nat
  is_live : Bool
  is_active : Bool
deriving DecidableEq, Repr

/-- models.py:69, is_live = models.BooleanField(default=True). -/
def is_live_default : Bool := true

/-- models.py:70, is_active = models.BooleanField(default=True). -/
def is_active_default : Bool := true

/-- A fresh Listing instance carrying the model field defaults, as built
by Listing(inventory=..., item=..., price=...) with no explicit flags. -/
def Listing.newWithDefaults (inventory item : Nat) (price : Int) : ListingInst :=
  { pk := none, inventory := inventory, item := item, price := price,
    promo_start_date := none, promo_end_date := none,
    is_live := is_live_default, is_active := is_active_default }

/-- Row of the LiveInventory relation (models.py:139-152): one row per
merchant, with the many-to-many listings set as a duplicate-free list. -/
structure LiveInventory where
  merchant : Nat
  listings : List Nat
deriving DecidableEq, Repr

/-- The relational store. -/
structure DB where
  inventories : List Inventory
  items : List Item
  listings : List Listing
  live_inventories : List LiveInventory
deriving DecidableEq, Repr

def DB.findInventory (db : DB) (p : Nat) : Option Inventory :=
  db.inventories.find? (fun i => i.pk == p)

/-- inventory__merchant lookup: the merchant that owns inventory p. -/
def DB.invMerchant (db : DB) (p : Nat) : Option Nat :=
  (db.findInventory p).map (fun i => i.merchant)

def DB.findListing (db : DB) (p : Nat) : Option Listing :=
  db.listings.find? (fun l => l.pk == p)

def DB.listingPks (db : DB) : List Nat := db.listings.map (fun l => l.pk)

def DB.findLiveInventory (db : DB) (m : Nat) : Option LiveInventory :=
  db.live_inventories.find? (fun li => li.merchant == m)

/-- The listings member set of LiveInventory(m), empty when the row is absent. -/
def DB.members (db : DB) (m : Nat) : List Nat :=
  ((db.findLiveInventory m).map (fun li => li.listings)).getD []

/-- Listing.objects.filter(inventory__merchant=m, is_live=True), as pks
(models.py:150-152). -/
def DB.livePks (db : DB) (m : Nat) : List Nat :=
  (db.listings.filter (fun l => l.is_live && db.invMerchant l.inventory == some m)).map
    (fun l => l.pk)

/-- Next free primary key: one past the maximum of the given keys. -/
def freshNat (xs : List Nat) : Nat := xs.foldr max 0 + 1

/-- INSERT-or-UPDATE of a Listing row keyed by pk: a SQL UPDATE when a row
with this pk exists, an INSERT otherwise. -/
def DB.writeListing (db : DB) (row : Listing) : DB :=
  if db.listings.any (fun l => l.pk == row.pk) then
    { db with listings := db.listings.map (fun l => if l.pk == row.pk then row else l) }
  else
    { db with listings := db.listings ++ [row] }

/-- post_save receiver enforce_single_live_listing (signals.py:5-16):
when the saved instance is live, bulk-update every other listing of the
same (merchant, item) to is_live=False.  A queryset .update emits one SQL
UPDATE and fires no signals. -/
def enforce_single_live_listing (db : DB) (row : Listing) (m : Nat) : DB :=
  { db with listings := db.listings.map (fun l =>
      if db.invMerchant l.inventory == some m && l.item == row.item &&
         l.is_live && !(l.pk == row.pk)
      then { l with is_live := false } else l) }

/-- LiveInventory.objects.get_or_create(merchant=merchant) (signals.py:28). -/
def get_or_create_live_inventory (db : DB) (m : Nat) : DB :=
  if (db.findLiveInventory m).isSome then db
  else { db with live_inventories := db.live_inventories ++ [⟨m, []⟩] }

/-- live_inventory.listings.filter(item=instance.item).update(is_live=False)
(signals.py:31): demotes, in the Listing table, every current member of
LiveInventory(m) whose item matches; membership itself is not changed. -/
def demote_member_listings (db : DB) (m : Nat) (it : Nat) : DB :=
  let mem := db.members m
  { db with listings := db.listings.map (fun l =>
      if mem.contains l.pk && l.item == it then { l with is_live := false } else l) }

/-- live_inventory.listings.add(instance) (signals.py:34): m2m add, a
no-op when the pk is already a member. -/
def add_member (db : DB) (m : Nat) (p : Nat) : DB :=
  { db with live_inventories := db.live_inventories.map (fun li =>
      if li.merchant == m then
        (if li.listings.contains p then li else { li with listings := li.listings ++ [p] })
      else li) }

/-- post_save receiver update_live_inventory (signals.py:21-40).  The
dead-listing branch (signals.py:36-40) evaluates models.F, but signals.py
never imports models, so it raises NameError before issuing any update. -/
def update_live_inventory_signal (db : DB) (row : Listing) (m : Nat) : DB × Option PyErr :=
  if row.is_live then
    let db1 := get_or_create_live_inventory db m
    let db2 := demote_member_listings db1 m row.item
    let db3 := add_member db2 m row.pk
    (db3, none)
  else
    (db, some .nameError)

/-- models.py:105-109: the first other live listing of the same
(merchant, item).  With pk still unassigned (inst.pk = none) the
exclude(pk=None) clause excludes nothing. -/
def find_old_live (db : DB) (m : Nat) (inst : ListingInst) : Option Listing :=
  db.listings.find? (fun l =>
    db.invMerchant l.inventory == some m && l.item == inst.item &&
    l.is_live && !(inst.pk == some l.pk))

/-- The Listing row written by super().save() for an instance whose
primary key resolved to pk. -/
def mkRow (inst : ListingInst) (pk : Nat) : Listing :=
  { pk := pk, inventory := inst.inventory, item := inst.item, price := inst.price,
    promo_start_date := inst.promo_start_date, promo_end_date := inst.promo_end_date,
    is_live := inst.is_live, is_active := inst.is_active }

/-- models.py:115-116: super().save() writes the row, post_save runs
enforce_single_live_listing and then update_live_inventory (receivers run
after the row write, in connection order, and an exception in a receiver
propagates out of save).  When both receivers return, models.py:116
evaluates the bare name update_live_inventory, which is not defined in
the module namespace of models.py, and raises NameError; the snap_url /
QR block at models.py:118-131 is therefore unreachable. -/
def save_commit (db : DB) (row : Listing) (m : Nat) : DB × Option PyErr :=
  let db1 := db.writeListing row
  let db2 := if row.is_live then enforce_single_live_listing db1 row m else db1
  match update_live_inventory_signal db2 row m with
  | (db3, some e) => (db3, some e)
  | (db3, none) => (db3, some .nameError)

/-- Listing.save override (models.py:98-131), traced with Django
semantics.  When the instance is live and an old live listing of the
same (merchant, item) exists, models.py:111-113 demotes it and saves it
with update_fields=["is_live"]; inside that recursive save the row write
succeeds and then the update_live_inventory receiver takes its
dead-listing branch and raises NameError (signals.py:39), so the outer
save aborts there: the old row is committed as not live and the instance
itself is never written.  Otherwise the write and the receivers run via
save_commit.  An instance whose inventory cannot be resolved fails its
FK dereference or constraint with no write. -/
def Listing.save (db : DB) (inst : ListingInst) : DB × Option PyErr :=
  match db.invMerchant inst.inventory with
  | none => (db, some .doesNotExist)
  | some m =>
    match (if inst.is_live then find_old_live db m inst else none) with
    | some o => (db.writeListing { o with is_live := false }, some .nameError)
    | none => save_commit db (mkRow inst (inst.pk.getD (freshNat db.listingPks))) m

/-- ListingViewSet.perform_destroy (api/views.py:246-250): soft delete,
instance.is_active = False followed by instance.save(). -/
def perform_destroy (db : DB) (p : Nat) : DB × Option PyErr :=
  match db.findListing p with
  | none => (db, some .doesNotExist)
  | some l =>
    Listing.save db
      { pk := some l.pk, inventory := l.inventory, item := l.item, price := l.price,
        promo_start_date := l.promo_start_date, promo_end_date := l.promo_end_date,
        is_live := l.is_live, is_active := false }

/-- LiveInventory.update_live_inventory (models.py:148-152), the resync:
self.listings.set(Listing.objects.filter(inventory__merchant=m, is_live=True)),
a wholesale replacement on the row of merchant m when it exists. -/
def LiveInventory.update_live_inventory (db : DB) (m : Nat) : DB :=
  { db with live_inventories := db.live_inventories.map (fun li =>
      if li.merchant == m then { li with listings := db.livePks m } else li) }

/-- One CSV row of the admin bulk-upload view; an empty promo cell is
modelled as none (admin.py:143-144 substitutes the date 2999-12-31). -/
structure UploadRow where
  item_name : String
  price : Int
  promo_start_date : Option Nat
  promo_end_date : Option Nat
deriving DecidableEq, Repr

/-- The fallback date 2999-12-31 of admin.py:143-144, encoded as yyyymmdd. -/
def date2999 : Nat := 29991231

/-- Inventory lookup-or-create of admin.py:105-111, keyed on
(merchant, inventory_name); returns the pk of the row used. -/
def get_or_create_inventory (db : DB) (m : Nat) (name : String) : DB × Nat :=
  match db.inventories.find? (fun i => i.merchant == m && i.inventory_name == name) with
  | some i => (db, i.pk)
  | none =>
    ({ db with inventories := db.inventories ++
        [⟨freshNat (db.inventories.map (fun i => i.pk)), m, name, []⟩] },
      freshNat (db.inventories.map (fun i => i.pk)))

/-- inventory.listings.set([]) (admin.py:120): clear the display m2m. -/
def clear_inventory_m2m (db : DB) (p : Nat) : DB :=
  { db with inventories := db.inventories.map (fun i =>
      if i.pk == p then { i with listings_m2m := [] } else i) }

/-- Listing.objects.update_or_create(inventory=..., item=..., defaults=...)
(admin.py:146-154).  Lookup by (inventory, item); zero matches takes the
create path (remaining fields get the model defaults of models.py:69-70),
one match is updated in place, two or more raise MultipleObjectsReturned.
update_or_create runs inside transaction.atomic, so when the inner save
raises, the savepoint rolls every write of this call back and the original
database is returned together with the exception. -/
def update_or_create_listing (db : DB) (invPk itemPk : Nat) (price : Int)
    (ps pe : Nat) : DB × Bool × Option PyErr :=
  match db.listings.filter (fun l => l.inventory == invPk && l.item == itemPk) with
  | [] =>
    match Listing.save db
      { pk := none, inventory := invPk, item := itemPk, price := price,
        promo_start_date := some ps, promo_end_date := some pe,
        is_live := is_live_default, is_active := is_active_default } with
    | (db1, none) => (db1, true, none)
    | (_, some e) => (db, false, some e)
  | [l] =>
    match Listing.save db
      { pk := some l.pk, inventory := invPk, item := itemPk, price := price,
        promo_start_date := some ps, promo_end_date := some pe,
        is_live := l.is_live, is_active := l.is_active } with
    | (db1, none) => (db1, false, none)
    | (_, some e) => (db, false, some e)
  | _ => (db, false, some .multipleObjectsReturned)

/-- Accumulator of the bulk-upload loop (admin.py:116-118). -/
structure BulkUploadState where
  db : DB
  created : Nat
  updated : Nat
  error_rows : List UploadRow
deriving Repr

/-- One iteration of the bulk-upload loop (admin.py:126-175).  The loop
body is a try/except: a row whose item_name resolves to no Item is
appended to error_rows and skipped (admin.py:135-139); any exception from
update_or_create is caught and the row is appended to error_rows
(admin.py:172-175).  On the exception-free path the source would count
the row, call listing.save() again and add the listing to the inventory
m2m (admin.py:156-170); that continuation is unreachable because
Listing.save always raises (lemma save_raises below), so it is modelled
by the counter updates alone. -/
def bulk_upload_row (invPk : Nat) (st : BulkUploadState) (r : UploadRow) :
    BulkUploadState :=
  match st.db.items.find? (fun it => it.item_name == r.item_name) with
  | none => { st with error_rows := st.error_rows ++ [r] }
  | some item =>
    match update_or_create_listing st.db invPk item.item_id r.price
      (r.promo_start_date.getD date2999) (r.promo_end_date.getD date2999) with
    | (db1, createdFlag, none) =>
      { st with db := db1,
                created := st.created + (if createdFlag then 1 else 0),
                updated := st.updated + (if createdFlag then 0 else 1) }
    | (db1, _, some _) => { st with db := db1, error_rows := st.error_rows ++ [r] }

/-- Result summary of the bulk-upload view. -/
structure BulkUploadResult where
  created : Nat
  updated : Nat
  error_rows : List UploadRow
deriving DecidableEq, Repr

/-- The row loop of the bulk-upload view (admin.py:125-175), run against
the prepared database db1 and packaged into the reported result. -/
def bulk_upload_go (invPk : Nat) (db1 : DB) (rows : List UploadRow) :
    DB × BulkUploadResult :=
  ((rows.foldl (bulk_upload_row invPk) ⟨db1, 0, 0, []⟩).db,
   ⟨(rows.foldl (bulk_upload_row invPk) ⟨db1, 0, 0, []⟩).created,
    (rows.foldl (bulk_upload_row invPk) ⟨db1, 0, 0, []⟩).updated,
    (rows.foldl (bulk_upload_row invPk) ⟨db1, 0, 0, []⟩).error_rows⟩)

/-- InventoryAdmin.bulk_upload_view (admin.py:77-183), entered with the
merchant already resolved from the file name (admin.py:86-101).  The view
ensures the Inventory row, clears its m2m, and runs the row loop inside a
single batch-wide transaction.atomic (admin.py:125); since every row
exception is caught inside the loop, that outer transaction always
commits, so it has no effect beyond the per-row savepoints already
modelled in update_or_create_listing. -/
def bulk_upload_view (db : DB) (m : Nat) (name : String) (rows : List UploadRow) :
    DB × BulkUploadResult :=
  bulk_upload_go (get_or_create_inventory db m name).2
    (clear_inventory_m2m (get_or_create_inventory db m name).1
      (get_or_create_inventory db m name).2) rows

/-- listing.delete() (admin.py:207): hard row deletion.  The m2m through
rows referencing the listing (LiveInventory.listings and
Inventory.listings) are removed by relational cascade. -/
def delete_listing (db : DB) (p : Nat) : DB :=
  { db with
    listings := db.listings.filter (fun l => !(l.pk == p)),
    live_inventories := db.live_inventories.map (fun li =>
      { li with listings := li.listings.filter (fun q => !(q == p)) }),
    inventories := db.inventories.map (fun i =>
      { i with listings_m2m := i.listings_m2m.filter (fun q => !(q == p)) }) }

/-- Accumulator of the bulk-delete loop (admin.py:196). -/
structure BulkDeleteState where
  db : DB
  deleted : Nat
  not_found : List Nat
deriving Repr

/-- One iteration of the bulk-delete loop (admin.py:199-213): a blank
item_id is skipped; a missing Item goes to not_found; a missing Listing
passes; a unique Listing is deleted.  Listing.objects.get with two or
more matches raises MultipleObjectsReturned, which no except clause
catches, aborting the whole view. -/
def bulk_delete_row (invPk : Nat) (st : BulkDeleteState) (row : Option Nat) :
    BulkDeleteState × Option PyErr :=
  match row with
  | none => (st, none)
  | some item_id =>
    match st.db.items.find? (fun it => it.item_id == item_id) with
    | none => ({ st with not_found := st.not_found ++ [item_id] }, none)
    | some item =>
      match st.db.listings.filter (fun l => l.inventory == invPk && l.item == item.item_id) with
      | [] => (st, none)
      | [l] => ({ st with db := delete_listing st.db l.pk, deleted := st.deleted + 1 }, none)
      | _ => (st, some .multipleObjectsReturned)

/-- The bulk-delete loop, stopping at the first uncaught exception. -/
def bulk_delete_rows (invPk : Nat) :
    List (Option Nat) → BulkDeleteState → BulkDeleteState × Option PyErr
  | [], st => (st, none)
  | r :: rs, st =>
    match bulk_delete_row invPk st r with
    | (st1, none) => bulk_delete_rows invPk rs st1
    | (st1, some e) => (st1, some e)

/-- Result of the bulk-delete view: deleted count and not-found item ids. -/
structure BulkDeleteResult where
  deleted : Nat
  not_found : List Nat
deriving DecidableEq, Repr

/-- InventoryAdmin.bulk_delete_view (admin.py:186-218).  The loop runs
inside one transaction.atomic (admin.py:198): an uncaught
MultipleObjectsReturned rolls the whole batch back and the view aborts.
A missing Inventory row aborts before the loop (admin.py:194). -/
def bulk_delete_view (db : DB) (invPk : Nat) (rows : List (Option Nat)) :
    DB × BulkDeleteResult × Option PyErr :=
  if (db.findInventory invPk).isSome then
    match bulk_delete_rows invPk rows ⟨db, 0, []⟩ with
    | (st, none) => (st.db, ⟨st.deleted, st.not_found⟩, none)
    | (_, some e) => (db, ⟨0, []⟩, some e)
  else (db, ⟨0, []⟩, some .doesNotExist)

/-- The core write operations of the subsystem, as named by claim C1:
single create/update via Listing.save, admin bulk CSV upsert, soft delete,
and admin bulk hard delete. -/
inductive Op
  | save (inst : ListingInst)
  | softDelete (p : Nat)
  | bulkUpload (m : Nat) (name : String) (rows : List UploadRow)
  | bulkDelete (invPk : Nat) (rows : List (Option Nat))
deriving Repr

/-- The committed database state after an operation, exceptions included
(autocommit persists what ran before the raise; atomic blocks roll back). -/
def applyOp (db : DB) : Op → DB
  | .save inst => (Listing.save db inst).1
  | .softDelete p => (perform_destroy db p).1
  | .bulkUpload m name rows => (bulk_upload_view db m name rows).1
  | .bulkDelete invPk rows => (bulk_delete_view db invPk rows).1

/-- Well-formedness of the store: primary keys are unique and every
listing references an existing inventory. -/
def WF (db : DB) : Prop :=
  (db.listings.map (fun l => l.pk)).Nodup ∧
  (db.inventories.map (fun i => i.pk)).Nodup ∧
  ∀ l ∈ db.listings, l.inventory ∈ db.inventories.map (fun i => i.pk)

/-- Pairwise form of invariant INV-1: two live listings of the same
(merchant, item) pair are the same row. -/
def INV1p (db : DB) : Prop :=
  ∀ l1 ∈ db.listings, ∀ l2 ∈ db.listings,
    l1.is_live = true → l2.is_live = true → l1.item = l2.item →
    db.invMerchant l1.inventory = db.invMerchant l2.inventory →
    (db.invMerchant l1.inventory).isSome = true →
    l1.pk = l2.pk

/-- count(Listing where inventory.merchant = m and item = i and
is_live = true), the quantity bounded by INV-1. -/
def liveCount (db : DB) (m i : Nat) : Nat :=
  (db.listings.filter (fun l =>
    l.is_live && db.invMerchant l.inventory == some m && l.item == i)).length

instance decidableWF (db : DB) : Decidable (WF db) := by
  unfold WF
  infer_instance

instance decidableINV1p (db : DB) : Decidable (INV1p db) := by
  unfold INV1p
  infer_instance

/-! Helper lemmas about the store primitives. -/

theorem freshNat_gt (xs : List Nat) : ∀ x ∈ xs, x < freshNat xs := by
  intro x hx
  unfold freshNat
  have : x ≤ xs.foldr max 0 := by
    induction xs with
    | nil => cases hx
    | cons a as ih =>
      rcases List.mem_cons.mp hx with h | h
      · subst h; exact le_max_left _ _
      · exact le_trans (ih h) (le_max_right _ _)
  omega

theorem freshNat_not_mem (xs : List Nat) : freshNat xs ∉ xs := by
  intro h
  exact absurd rfl (Nat.ne_of_lt (freshNat_gt xs _ h))

theorem find?_map_pres {α : Type} {f : α → α} {p : α → Bool}
    (hpres : ∀ a, p (f a) = p a) (xs : List α) :
    (xs.map f).find? p = (xs.find? p).map f := by
  induction xs with
  | nil => rfl
  | cons a as ih =>
    by_cases h : p a
    · rw [List.map_cons, List.find?_cons_of_pos _ (by rw [hpres]; exact h),
        List.find?_cons_of_pos _ h]
      rfl
    · rw [List.map_cons, List.find?_cons_of_neg _ (by rw [hpres]; simpa using h),
        List.find?_cons_of_neg _ (by simpa using h)]
      exact ih

theorem invMerchant_congr {db db' : DB} (h : db'.inventories = db.inventories)
    (p : Nat) : db'.invMerchant p = db.invMerchant p := by
  unfold DB.invMerchant DB.findInventory
  rw [h]

/-- Changing only fields other than pk and merchant of inventory rows does
not change the merchant lookup. -/
theorem invMerchant_map {db : DB} {f : Inventory → Inventory}
    (hpk : ∀ i, (f i).pk = i.pk) (hm : ∀ i, (f i).merchant = i.merchant)
    {db' : DB} (h : db'.inventories = db.inventories.map f) (p : Nat) :
    db'.invMerchant p = db.invMerchant p := by
  unfold DB.invMerchant DB.findInventory
  rw [h, find?_map_pres (fun i => by simp [hpk])]
  cases db.inventories.find? (fun i => i.pk == p) with
  | none => rfl
  | some i => simp [hm]

theorem invMerchant_isSome_mem {db : DB} {p m : Nat}
    (h : db.invMerchant p = some m) : p ∈ db.inventories.map (fun i => i.pk) := by
  unfold DB.invMerchant DB.findInventory at h
  cases hf : db.inventories.find? (fun i => i.pk == p) with
  | none => rw [hf] at h; cases h
  | some i =>
    have h1 := List.find?_some hf
    have h2 := List.mem_of_find?_eq_some hf
    simp only [beq_iff_eq] at h1
    exact h1 ▸ List.mem_map_of_mem (fun i => i.pk) h2

/-- Appending an inventory row whose pk is not yet used does not change
the merchant lookup of any pk already in use. -/
theorem invMerchant_append {db : DB} {i0 : Inventory} {db' : DB}
    (h : db'.inventories = db.inventories ++ [i0])
    {p : Nat} (hp : p ∈ db.inventories.map (fun i => i.pk)) :
    db'.invMerchant p = db.invMerchant p := by
  unfold DB.invMerchant DB.findInventory
  rw [h, List.find?_append]
  rcases List.mem_map.mp hp with ⟨i, hi, hpk⟩
  have : (db.inventories.find? (fun j => j.pk == p)).isSome := by
    rw [List.find?_isSome]
    exact ⟨i, hi, by simp [hpk]⟩
  cases hf : db.inventories.find? (fun j => j.pk == p) with
  | none => rw [hf] at this; cases this
  | some j => rfl

theorem writeListing_inventories (db : DB) (row : Listing) :
    (db.writeListing row).inventories = db.inventories := by
  unfold DB.writeListing
  split <;> rfl

theorem writeListing_live_inventories (db : DB) (row : Listing) :
    (db.writeListing row).live_inventories = db.live_inventories := by
  unfold DB.writeListing
  split <;> rfl

theorem writeListing_items (db : DB) (row : Listing) :
    (db.writeListing row).items = db.items := by
  unfold DB.writeListing
  split <;> rfl

/-- Every row of the store after a write is the written row or an
untouched row with a different primary key. -/
theorem mem_writeListing {db : DB} {row l : Listing}
    (h : l ∈ (db.writeListing row).listings) :
    l = row ∨ (l ∈ db.listings ∧ l.pk ≠ row.pk) := by
  unfold DB.writeListing at h
  split at h
  case isTrue =>
    simp only [List.mem_map] at h
    obtain ⟨x, hx, hfx⟩ := h
    by_cases hpk : x.pk == row.pk
    · left; rw [if_pos hpk] at hfx; exact hfx.symm
    · right
      rw [if_neg hpk] at hfx
      subst hfx
      exact ⟨hx, by simpa using hpk⟩
  case isFalse hany =>
    rcases List.mem_append.mp h with h1 | h1
    · right
      refine ⟨h1, ?_⟩
      intro hpk
      exact hany (List.any_eq_true.mpr ⟨l, h1, by simp [hpk]⟩)
    · left; simpa using h1

/-- The written row is present after the write. -/
theorem row_mem_writeListing (db : DB) (row : Listing) :
    row ∈ (db.writeListing row).listings := by
  unfold DB.writeListing
  split
  case isTrue hany =>
    rcases List.any_eq_true.mp hany with ⟨x, hx, hpk⟩
    exact List.mem_map.mpr ⟨x, hx, by rw [if_pos hpk]⟩
  case isFalse => simp

/-- A write either leaves the pk column unchanged or appends one fresh pk. -/
theorem writeListing_pks (db : DB) (row : Listing) :
    (db.writeListing row).listings.map (fun l => l.pk) = db.listings.map (fun l => l.pk) ∨
    ((db.writeListing row).listings.map (fun l => l.pk) =
        db.listings.map (fun l => l.pk) ++ [row.pk] ∧
      row.pk ∉ db.listings.map (fun l => l.pk)) := by
  unfold DB.writeListing
  split
  case isTrue =>
    left
    rw [List.map_map]
    refine List.map_congr_left ?_
    intro l _
    by_cases h : l.pk == row.pk
    · simp only [Function.comp, if_pos h]
      exact (beq_iff_eq.mp h).symm
    · simp only [Function.comp, if_neg h]
  case isFalse hany =>
    right
    constructor
    · simp
    · intro hmem
      rcases List.mem_map.mp hmem with ⟨l, hl, hpk⟩
      exact hany (List.any_eq_true.mpr ⟨l, hl, by simp [hpk]⟩)

/-! Invariant transfer machinery. -/

/-- INV-1 transfers backwards along any step whose live rows all come
from live rows of the previous state with the same pk, item and merchant. -/
theorem INV1p_transfer {db db' : DB}
    (h : ∀ l ∈ db'.listings, l.is_live = true →
      ∃ l0 ∈ db.listings, l0.is_live = true ∧ l0.pk = l.pk ∧ l0.item = l.item ∧
        db'.invMerchant l.inventory = db.invMerchant l0.inventory)
    (hdb : INV1p db) : INV1p db' := by
  intro l1 h1 l2 h2 hl1 hl2 hitem hm hs
  obtain ⟨a1, ha1, ha1l, ha1pk, ha1it, ha1m⟩ := h l1 h1 hl1
  obtain ⟨a2, ha2, ha2l, ha2pk, ha2it, ha2m⟩ := h l2 h2 hl2
  rw [← ha1pk, ← ha2pk]
  refine hdb a1 ha1 a2 ha2 ha1l ha2l (by rw [ha1it, ha2it, hitem]) ?_ ?_
  · rw [← ha1m, ← ha2m, hm]
  · rw [← ha1m]; exact hs

/-- A pointwise listing transformation that can only turn the live flag
off (keeping pk, item and inventory) preserves INV-1. -/
theorem INV1p_map_demote {db : DB} {g : Listing → Listing}
    (hpk : ∀ l, (g l).pk = l.pk) (hit : ∀ l, (g l).item = l.item)
    (hinv : ∀ l, (g l).inventory = l.inventory)
    (hlive : ∀ l, (g l).is_live = true → l.is_live = true)
    {db' : DB} (hls : db'.listings = db.listings.map g)
    (hinvs : db'.inventories = db.inventories)
    (hdb : INV1p db) : INV1p db' := by
  refine INV1p_transfer ?_ hdb
  intro l hl hlv
  rw [hls] at hl
  rcases List.mem_map.mp hl with ⟨l0, hl0, hgl⟩
  subst hgl
  exact ⟨l0, hl0, hlive l0 hlv, (hpk l0).symm, (hit l0).symm,
    by rw [hinv l0]; exact invMerchant_congr hinvs _⟩

/-- Changing only the live-inventory relation changes neither WF nor INV-1. -/
theorem INV1p_liveinv {db : DB} (x : List LiveInventory) (h : INV1p db) :
    INV1p { db with live_inventories := x } := h

theorem WF_liveinv {db : DB} (x : List LiveInventory) (h : WF db) :
    WF { db with live_inventories := x } := h

/-- A pointwise listing transformation keeping pk and inventory preserves WF. -/
theorem WF_map_listing {db : DB} {g : Listing → Listing}
    (hpk : ∀ l, (g l).pk = l.pk) (hinv : ∀ l, (g l).inventory = l.inventory)
    {db' : DB} (hls : db'.listings = db.listings.map g)
    (hinvs : db'.inventories = db.inventories)
    (hdb : WF db) : WF db' := by
  obtain ⟨hnd, hndi, href⟩ := hdb
  refine ⟨?_, by rw [hinvs]; exact hndi, ?_⟩
  · rw [hls, List.map_map]
    have : (fun l => l.pk) ∘ g = fun l => l.pk := funext fun l => hpk l
    rw [this]
    exact hnd
  · intro l hl
    rw [hls] at hl
    rcases List.mem_map.mp hl with ⟨l0, hl0, hgl⟩
    subst hgl
    rw [hinv l0, hinvs]
    exact href l0 hl0

/-- Writing a row whose inventory reference exists preserves WF. -/
theorem WF_writeListing {db : DB} {row : Listing}
    (hrow : row.inventory ∈ db.inventories.map (fun i => i.pk))
    (hdb : WF db) : WF (db.writeListing row) := by
  obtain ⟨hnd, hndi, href⟩ := hdb
  refine ⟨?_, ?_, ?_⟩
  · rcases writeListing_pks db row with h | ⟨h, hni⟩
    · rw [h]; exact hnd
    · rw [h]
      simp only [List.nodup_append, List.nodup_cons]
      exact ⟨hnd, by simp, by simpa [List.disjoint_right] using hni⟩
  · rw [writeListing_inventories]; exact hndi
  · intro l hl
    rw [writeListing_inventories]
    rcases mem_writeListing hl with h | ⟨h, _⟩
    · subst h; exact hrow
    · exact href l h

/-- Deleting rows (a filter) while keeping inventories up to fields other
than pk and merchant preserves WF. -/
theorem WF_filter_listing {db : DB} {q : Listing → Bool}
    {f : Inventory → Inventory} (hpk : ∀ i, (f i).pk = i.pk)
    {db' : DB} (hls : db'.listings = db.listings.filter q)
    (hinvs : db'.inventories = db.inventories.map f)
    (hdb : WF db) : WF db' := by
  obtain ⟨hnd, hndi, href⟩ := hdb
  have hpks : db'.inventories.map (fun i => i.pk) = db.inventories.map (fun i => i.pk) := by
    rw [hinvs, List.map_map]
    exact List.map_congr_left fun i _ => hpk i
  refine ⟨?_, ?_, ?_⟩
  · rw [hls]
    exact List.Nodup.sublist (List.Sublist.map _ (List.filter_sublist _)) hnd
  · rw [hpks]; exact hndi
  · intro l hl
    rw [hls] at hl
    rw [hpks]
    exact href l (List.mem_of_mem_filter hl)

/-! Equation lemmas tracing Listing.save. -/

theorem save_commit_live {db : DB} {row : Listing} {m : Nat} (h : row.is_live = true) :
    save_commit db row m =
      (add_member (demote_member_listings (get_or_create_live_inventory
          (enforce_single_live_listing (db.writeListing row) row m) m) m row.item)
        m row.pk, some .nameError) := by
  simp [save_commit, update_live_inventory_signal, h]

theorem save_commit_dead {db : DB} {row : Listing} {m : Nat} (h : row.is_live = false) :
    save_commit db row m = (db.writeListing row, some .nameError) := by
  simp [save_commit, update_live_inventory_signal, h]

theorem save_eq_no_inv {db : DB} {inst : ListingInst}
    (h : db.invMerchant inst.inventory = none) :
    Listing.save db inst = (db, some .doesNotExist) := by
  unfold Listing.save
  rw [h]

theorem save_eq_old {db : DB} {inst : ListingInst} {m : Nat} {o : Listing}
    (hm : db.invMerchant inst.inventory = some m)
    (ho : (if inst.is_live then find_old_live db m inst else none) = some o) :
    Listing.save db inst = (db.writeListing { o with is_live := false }, some .nameError) := by
  unfold Listing.save
  simp only [hm, ho]

theorem save_eq_commit {db : DB} {inst : ListingInst} {m : Nat}
    (hm : db.invMerchant inst.inventory = some m)
    (ho : (if inst.is_live then find_old_live db m inst else none) = none) :
    Listing.save db inst =
      save_commit db (mkRow inst (inst.pk.getD (freshNat db.listingPks))) m := by
  unfold Listing.save
  simp only [hm, ho]

theorem save_commit_raises (db : DB) (row : Listing) (m : Nat) :
    (save_commit db row m).2.isSome := by
  cases h : row.is_live
  · rw [save_commit_dead h]; rfl
  · rw [save_commit_live h]; rfl

/-- Every call to Listing.save raises a Python exception. -/
theorem save_raises (db : DB) (inst : ListingInst) :
    (Listing.save db inst).2.isSome := by
  cases hm : db.invMerchant inst.inventory with
  | none => rw [save_eq_no_inv hm]; rfl
  | some m =>
    cases ho : (if inst.is_live then find_old_live db m inst else none) with
    | some o => rw [save_eq_old hm ho]; rfl
    | none => rw [save_eq_commit hm ho]; exact save_commit_raises _ _ _

/-! INV-1 and WF preservation of Listing.save. -/

theorem INV1p_writeListing_dead {db : DB} {row : Listing} (h : row.is_live = false)
    (hdb : INV1p db) : INV1p (db.writeListing row) := by
  refine INV1p_transfer ?_ hdb
  intro l hl hlv
  rcases mem_writeListing hl with rfl | ⟨hmem, _⟩
  · rw [hlv] at h; cases h
  · exact ⟨l, hmem, hlv, rfl, rfl, invMerchant_congr (writeListing_inventories db row) _⟩

/-- A none result of the old-live scan pins the pk of every live listing
of the same (merchant, item) to the pk the saved instance will use. -/
theorem find_old_live_none {db : DB} {m : Nat} {inst : ListingInst}
    (h : find_old_live db m inst = none) :
    ∀ x ∈ db.listings, db.invMerchant x.inventory = some m → x.item = inst.item →
      x.is_live = true → x.pk = inst.pk.getD (freshNat db.listingPks) := by
  intro x hx h1 h2 h3
  have hp := List.find?_eq_none.mp h x hx
  simp only [Bool.and_eq_true, beq_iff_eq, Bool.not_eq_true', Bool.not_eq_eq_eq_not,
    Bool.not_true, beq_eq_false_iff_ne, ne_eq, not_and] at hp
  have := hp ⟨⟨h1, h2⟩, h3⟩
  rw [not_not] at this
  rw [this]
  rfl

/-- After the write of a live row whose scan found no other live listing
of the same (merchant, item), INV-1 holds. -/
theorem INV1p_writeListing_live {db : DB} {inst : ListingInst} {m : Nat}
    (hm : db.invMerchant inst.inventory = some m)
    (hnone : find_old_live db m inst = none)
    (hdb : INV1p db) :
    INV1p (db.writeListing (mkRow inst (inst.pk.getD (freshNat db.listingPks)))) := by
  set pk := inst.pk.getD (freshNat db.listingPks) with hpkdef
  set row := mkRow inst pk with hrowdef
  have hscan := find_old_live_none hnone
  have hinvs := writeListing_inventories db row
  have hcongr : ∀ p, (db.writeListing row).invMerchant p = db.invMerchant p :=
    invMerchant_congr hinvs
  intro l1 h1 l2 h2 hl1 hl2 hitem hmer hs
  have key : ∀ l ∈ (db.writeListing row).listings, l.is_live = true →
      l.item = row.item → (db.writeListing row).invMerchant l.inventory = some m →
      l.pk = row.pk := by
    intro l hl hlv hit hmm
    rcases mem_writeListing hl with rfl | ⟨hmem, hne⟩
    · rfl
    · rw [hcongr] at hmm
      exact hscan l hmem hmm hit hlv
  rcases mem_writeListing h1 with rfl | ⟨m1, ne1⟩
  · rcases mem_writeListing h2 with rfl | ⟨m2, ne2⟩
    · rfl
    · have hm2 : (db.writeListing row).invMerchant l2.inventory = some m := by
        rw [← hmer, hcongr]
        exact hm
      exact (key l2 h2 hl2 (by rw [← hitem]) hm2).symm
  · rcases mem_writeListing h2 with rfl | ⟨m2, ne2⟩
    · exact key l1 h1 hl1 (by rw [hitem]) (by rw [hmer]; rw [hcongr]; exact hm)
    · have e1 := hcongr l1.inventory
      have e2 := hcongr l2.inventory
      exact hdb l1 m1 l2 m2 hl1 hl2 hitem (by rw [← e1, ← e2]; exact hmer)
        (by rw [← e1]; exact hs)

theorem INV1p_enforce {db : DB} {row : Listing} {m : Nat} (h : INV1p db) :
    INV1p (enforce_single_live_listing db row m) := by
  refine INV1p_map_demote ?_ ?_ ?_ ?_ rfl rfl h
  · intro l; dsimp only; split <;> rfl
  · intro l; dsimp only; split <;> rfl
  · intro l; dsimp only; split <;> rfl
  · intro l; dsimp only; split
    · intro h'; cases h'
    · exact id

theorem WF_enforce {db : DB} {row : Listing} {m : Nat} (h : WF db) :
    WF (enforce_single_live_listing db row m) := by
  refine WF_map_listing ?_ ?_ rfl rfl h
  · intro l; dsimp only; split <;> rfl
  · intro l; dsimp only; split <;> rfl

theorem INV1p_demote_members {db : DB} {m it : Nat} (h : INV1p db) :
    INV1p (demote_member_listings db m it) := by
  refine INV1p_map_demote ?_ ?_ ?_ ?_ rfl rfl h
  · intro l; dsimp only; split <;> rfl
  · intro l; dsimp only; split <;> rfl
  · intro l; dsimp only; split <;> rfl
  · intro l; dsimp only; split
    · intro h'; cases h'
    · exact id

theorem WF_demote_members {db : DB} {m it : Nat} (h : WF db) :
    WF (demote_member_listings db m it) := by
  refine WF_map_listing ?_ ?_ rfl rfl h
  · intro l; dsimp only; split <;> rfl
  · intro l; dsimp only; split <;> rfl

theorem INV1p_get_or_create {db : DB} {m : Nat} (h : INV1p db) :
    INV1p (get_or_create_live_inventory db m) := by
  unfold get_or_create_live_inventory
  split
  · exact h
  · exact INV1p_liveinv _ h

theorem WF_get_or_create {db : DB} {m : Nat} (h : WF db) :
    WF (get_or_create_live_inventory db m) := by
  unfold get_or_create_live_inventory
  split
  · exact h
  · exact WF_liveinv _ h

theorem INV1p_add_member {db : DB} {m p : Nat} (h : INV1p db) :
    INV1p (add_member db m p) := INV1p_liveinv _ h

theorem WF_add_member {db : DB} {m p : Nat} (h : WF db) :
    WF (add_member db m p) := WF_liveinv _ h

/-- Listing.save preserves invariant INV-1 on the committed state, on
every control path, exceptions included. -/
theorem save_INV1p (db : DB) (inst : ListingInst) (hdb : INV1p db) :
    INV1p (Listing.save db inst).1 := by
  cases hm : db.invMerchant inst.inventory with
  | none => rw [save_eq_no_inv hm]; exact hdb
  | some m =>
    cases ho : (if inst.is_live then find_old_live db m inst else none) with
    | some o =>
      rw [save_eq_old hm ho]
      exact INV1p_writeListing_dead rfl hdb
    | none =>
      rw [save_eq_commit hm ho]
      cases hl : inst.is_live with
      | false =>
        rw [save_commit_dead (show (mkRow inst (inst.pk.getD (freshNat db.listingPks))).is_live = false from hl)]
        exact INV1p_writeListing_dead hl hdb
      | true =>
        have hfo : find_old_live db m inst = none := by
          rw [hl] at ho
          simpa using ho
        rw [save_commit_live (show (mkRow inst (inst.pk.getD (freshNat db.listingPks))).is_live = true from hl)]
        exact INV1p_add_member (INV1p_demote_members (INV1p_get_or_create
          (INV1p_enforce (INV1p_writeListing_live hm hfo hdb))))

/-- Listing.save preserves well-formedness of the store. -/
theorem save_WF (db : DB) (inst : ListingInst) (hdb : WF db) :
    WF (Listing.save db inst).1 := by
  cases hm : db.invMerchant inst.inventory with
  | none => rw [save_eq_no_inv hm]; exact hdb
  | some m =>
    cases ho : (if inst.is_live then find_old_live db m inst else none) with
    | some o =>
      rw [save_eq_old hm ho]
      have hmem : o ∈ db.listings := by
        cases hl : inst.is_live
        · rw [hl] at ho; simp at ho
        · rw [hl] at ho
          simp only [if_true] at ho
          unfold find_old_live at ho
          exact List.mem_of_find?_eq_some ho
      exact WF_writeListing (hdb.2.2 o hmem) hdb
    | none =>
      rw [save_eq_commit hm ho]
      have hwrite : WF (db.writeListing (mkRow inst (inst.pk.getD (freshNat db.listingPks)))) :=
        WF_writeListing (invMerchant_isSome_mem hm) hdb
      cases hl : inst.is_live with
      | false =>
        rw [save_commit_dead (show (mkRow inst (inst.pk.getD (freshNat db.listingPks))).is_live = false from hl)]
        exact hwrite
      | true =>
        rw [save_commit_live (show (mkRow inst (inst.pk.getD (freshNat db.listingPks))).is_live = true from hl)]
        exact WF_add_member (WF_demote_members (WF_get_or_create (WF_enforce hwrite)))

/-! Soft delete reduces to Listing.save. -/

theorem perform_destroy_INV1p (db : DB) (p : Nat) (hdb : INV1p db) :
    INV1p (perform_destroy db p).1 := by
  unfold perform_destroy
  split
  · exact hdb
  · exact save_INV1p _ _ hdb

theorem perform_destroy_WF (db : DB) (p : Nat) (hdb : WF db) :
    WF (perform_destroy db p).1 := by
  unfold perform_destroy
  split
  · exact hdb
  · exact save_WF _ _ hdb

/-! Inventory-table transformations used by the admin bulk views. -/

theorem WF_inv_map {db : DB} {f : Inventory → Inventory}
    (hpk : ∀ i, (f i).pk = i.pk) {db' : DB}
    (hls : db'.listings = db.listings)
    (hinvs : db'.inventories = db.inventories.map f) (hdb : WF db) : WF db' := by
  obtain ⟨hnd, hndi, href⟩ := hdb
  have hpks : db'.inventories.map (fun i => i.pk) = db.inventories.map (fun i => i.pk) := by
    rw [hinvs, List.map_map]
    exact List.map_congr_left fun i _ => hpk i
  exact ⟨by rw [hls]; exact hnd, by rw [hpks]; exact hndi,
    fun l hl => by rw [hpks]; exact href l (hls ▸ hl)⟩

theorem INV1p_inv_map {db : DB} {f : Inventory → Inventory}
    (hpk : ∀ i, (f i).pk = i.pk) (hm : ∀ i, (f i).merchant = i.merchant)
    {db' : DB} (hls : db'.listings = db.listings)
    (hinvs : db'.inventories = db.inventories.map f) (hdb : INV1p db) : INV1p db' := by
  refine INV1p_transfer ?_ hdb
  intro l hl hlv
  exact ⟨l, hls ▸ hl, hlv, rfl, rfl, invMerchant_map hpk hm hinvs _⟩

theorem WF_inv_append {db : DB} {i0 : Inventory}
    (hfresh : i0.pk ∉ db.inventories.map (fun i => i.pk))
    {db' : DB} (hls : db'.listings = db.listings)
    (hinvs : db'.inventories = db.inventories ++ [i0]) (hdb : WF db) : WF db' := by
  obtain ⟨hnd, hndi, href⟩ := hdb
  refine ⟨by rw [hls]; exact hnd, ?_, ?_⟩
  · rw [hinvs]
    simp only [List.map_append, List.map_cons, List.map_nil, List.nodup_append,
      List.nodup_cons]
    exact ⟨hndi, by simp, by simpa [List.disjoint_right] using hfresh⟩
  · intro l hl
    rw [hinvs, List.map_append]
    exact List.mem_append_left _ (href l (hls ▸ hl))

theorem INV1p_inv_append {db : DB} {i0 : Inventory}
    {db' : DB} (hls : db'.listings = db.listings)
    (hinvs : db'.inventories = db.inventories ++ [i0])
    (href : ∀ l ∈ db.listings, l.inventory ∈ db.inventories.map (fun i => i.pk))
    (hdb : INV1p db) : INV1p db' := by
  refine INV1p_transfer ?_ hdb
  intro l hl hlv
  refine ⟨l, hls ▸ hl, hlv, rfl, rfl, invMerchant_append hinvs (href l (hls ▸ hl))⟩

theorem get_or_create_inventory_listings (db : DB) (m : Nat) (name : String) :
    (get_or_create_inventory db m name).1.listings = db.listings ∧
    (get_or_create_inventory db m name).1.live_inventories = db.live_inventories := by
  unfold get_or_create_inventory
  split <;> exact ⟨rfl, rfl⟩

theorem get_or_create_inventory_pres (db : DB) (m : Nat) (name : String)
    (hdb : WF db) (h1 : INV1p db) :
    WF (get_or_create_inventory db m name).1 ∧
    INV1p (get_or_create_inventory db m name).1 := by
  unfold get_or_create_inventory
  split
  · exact ⟨hdb, h1⟩
  · exact ⟨@WF_inv_append db _ (freshNat_not_mem _) _ rfl rfl hdb,
      @INV1p_inv_append db _ _ rfl rfl hdb.2.2 h1⟩

theorem clear_inventory_m2m_pres (db : DB) (p : Nat) (hdb : WF db) (h1 : INV1p db) :
    WF (clear_inventory_m2m db p) ∧ INV1p (clear_inventory_m2m db p) := by
  refine ⟨@WF_inv_map db _ ?_ (clear_inventory_m2m db p) rfl rfl hdb,
    @INV1p_inv_map db _ ?_ ?_ (clear_inventory_m2m db p) rfl rfl h1⟩
  · intro i; dsimp only; split <;> rfl
  · intro i; dsimp only; split <;> rfl
  · intro i; dsimp only; split <;> rfl

/-! The bulk-upload loop commits nothing: every row raises and is rolled
back to its savepoint. -/

theorem save_ne_none (db : DB) (inst : ListingInst) (db1 : DB) :
    Listing.save db inst ≠ (db1, none) := by
  intro h
  have hs := save_raises db inst
  rw [h] at hs
  cases hs

theorem update_or_create_spec (db : DB) (invPk itemPk : Nat) (price : Int) (ps pe : Nat) :
    (update_or_create_listing db invPk itemPk price ps pe).1 = db ∧
    (update_or_create_listing db invPk itemPk price ps pe).2.2 ≠ none := by
  unfold update_or_create_listing
  split
  · split
    next db1 heq => exact absurd heq (save_ne_none _ _ _)
    next d e heq => exact ⟨rfl, by simp⟩
  · split
    next db1 heq => exact absurd heq (save_ne_none _ _ _)
    next d e heq => exact ⟨rfl, by simp⟩
  · exact ⟨rfl, by simp⟩

theorem bulk_upload_row_spec (invPk : Nat) (st : BulkUploadState) (r : UploadRow) :
    (bulk_upload_row invPk st r).db = st.db ∧
    (bulk_upload_row invPk st r).created = st.created ∧
    (bulk_upload_row invPk st r).updated = st.updated ∧
    (bulk_upload_row invPk st r).error_rows = st.error_rows ++ [r] := by
  unfold bulk_upload_row
  split
  · exact ⟨rfl, rfl, rfl, rfl⟩
  next item hitem =>
    obtain ⟨hdb, herr⟩ := update_or_create_spec st.db invPk item.item_id r.price
      (r.promo_start_date.getD date2999) (r.promo_end_date.getD date2999)
    split
    next db1 flag heq => exact absurd (by rw [heq]) herr
    next db1 flag e heq =>
      have hd : db1 = st.db := by rw [← hdb, heq]
      refine ⟨?_, rfl, rfl, rfl⟩
      dsimp only
      rw [hd]

theorem bulk_upload_fold_spec (invPk : Nat) (rows : List UploadRow) (st : BulkUploadState) :
    (rows.foldl (bulk_upload_row invPk) st).db = st.db ∧
    (rows.foldl (bulk_upload_row invPk) st).created = st.created ∧
    (rows.foldl (bulk_upload_row invPk) st).updated = st.updated ∧
    (rows.foldl (bulk_upload_row invPk) st).error_rows = st.error_rows ++ rows := by
  induction rows generalizing st with
  | nil => exact ⟨rfl, rfl, rfl, by simp⟩
  | cons r rs ih =>
    obtain ⟨h1, h2, h3, h4⟩ := bulk_upload_row_spec invPk st r
    obtain ⟨g1, g2, g3, g4⟩ := ih (bulk_upload_row invPk st r)
    rw [List.foldl_cons]
    exact ⟨by rw [g1, h1], by rw [g2, h2], by rw [g3, h3], by rw [g4, h4]; simp⟩

theorem bulk_upload_go_spec (invPk : Nat) (db1 : DB) (rows : List UploadRow) :
    (bulk_upload_go invPk db1 rows).1 = db1 ∧
    (bulk_upload_go invPk db1 rows).2 = ⟨0, 0, rows⟩ := by
  obtain ⟨f1, f2, f3, f4⟩ := bulk_upload_fold_spec invPk rows ⟨db1, 0, 0, []⟩
  unfold bulk_upload_go
  refine ⟨f1, ?_⟩
  rw [f2, f3, f4]
  simp

/-- The admin bulk-upload view persists no listing, touches no live
inventory, reports zero created and updated rows, and records every row
in the error list. -/
theorem bulk_upload_view_spec (db : DB) (m : Nat) (name : String) (rows : List UploadRow) :
    (bulk_upload_view db m name rows).1.listings = db.listings ∧
    (bulk_upload_view db m name rows).1.live_inventories = db.live_inventories ∧
    (bulk_upload_view db m name rows).2 = ⟨0, 0, rows⟩ := by
  obtain ⟨g1, g2⟩ := bulk_upload_go_spec (get_or_create_inventory db m name).2
    (clear_inventory_m2m (get_or_create_inventory db m name).1
      (get_or_create_inventory db m name).2) rows
  obtain ⟨e1, e2⟩ := get_or_create_inventory_listings db m name
  unfold bulk_upload_view
  refine ⟨?_, ?_, g2⟩
  · rw [g1]
    exact e1
  · rw [g1]
    exact e2

theorem bulk_upload_view_pres (db : DB) (m : Nat) (name : String) (rows : List UploadRow)
    (hdb : WF db) (h1 : INV1p db) :
    WF (bulk_upload_view db m name rows).1 ∧ INV1p (bulk_upload_view db m name rows).1 := by
  obtain ⟨w0, i0⟩ := get_or_create_inventory_pres db m name hdb h1
  obtain ⟨w1, i1⟩ := clear_inventory_m2m_pres (get_or_create_inventory db m name).1
    (get_or_create_inventory db m name).2 w0 i0
  obtain ⟨g1, _⟩ := bulk_upload_go_spec (get_or_create_inventory db m name).2
    (clear_inventory_m2m (get_or_create_inventory db m name).1
      (get_or_create_inventory db m name).2) rows
  unfold bulk_upload_view
  rw [g1]
  exact ⟨w1, i1⟩

/-! Bulk hard delete preserves the invariants. -/

theorem delete_listing_invMerchant (db : DB) (p q : Nat) :
    (delete_listing db p).invMerchant q = db.invMerchant q := by
  refine @invMerchant_map db _ ?_ ?_ (delete_listing db p) rfl q
  · intro i; rfl
  · intro i; rfl

theorem delete_listing_WF (db : DB) (p : Nat) (hdb : WF db) : WF (delete_listing db p) := by
  refine @WF_filter_listing db _ _ ?_ (delete_listing db p) rfl rfl hdb
  intro i; rfl

theorem delete_listing_INV1p (db : DB) (p : Nat) (h : INV1p db) :
    INV1p (delete_listing db p) := by
  refine INV1p_transfer ?_ h
  intro l hl hlv
  exact ⟨l, List.mem_of_mem_filter hl, hlv, rfl, rfl, delete_listing_invMerchant db p _⟩

theorem bulk_delete_row_pres (invPk : Nat) (st : BulkDeleteState) (row : Option Nat)
    (hdb : WF st.db) (h1 : INV1p st.db) :
    WF (bulk_delete_row invPk st row).1.db ∧ INV1p (bulk_delete_row invPk st row).1.db := by
  unfold bulk_delete_row
  split
  · exact ⟨hdb, h1⟩
  · split
    · exact ⟨hdb, h1⟩
    · split
      · exact ⟨hdb, h1⟩
      · exact ⟨delete_listing_WF _ _ hdb, delete_listing_INV1p _ _ h1⟩
      · exact ⟨hdb, h1⟩

theorem bulk_delete_rows_pres (invPk : Nat) (rows : List (Option Nat))
    (st : BulkDeleteState) (hdb : WF st.db) (h1 : INV1p st.db) :
    WF (bulk_delete_rows invPk rows st).1.db ∧
    INV1p (bulk_delete_rows invPk rows st).1.db := by
  induction rows generalizing st with
  | nil => exact ⟨hdb, h1⟩
  | cons r rs ih =>
    unfold bulk_delete_rows
    obtain ⟨w, i⟩ := bulk_delete_row_pres invPk st r hdb h1
    split
    next st1 heq =>
      rw [heq] at w i
      exact ih st1 w i
    next st1 e heq =>
      rw [heq] at w i
      exact ⟨w, i⟩

theorem bulk_delete_view_pres (db : DB) (invPk : Nat) (rows : List (Option Nat))
    (hdb : WF db) (h1 : INV1p db) :
    WF (bulk_delete_view db invPk rows).1 ∧ INV1p (bulk_delete_view db invPk rows).1 := by
  unfold bulk_delete_view
  split
  · obtain ⟨w, i⟩ := bulk_delete_rows_pres invPk rows ⟨db, 0, []⟩ hdb h1
    split
    next st heq =>
      rw [heq] at w i
      exact ⟨w, i⟩
    next st e heq => exact ⟨hdb, h1⟩
  · exact ⟨hdb, h1⟩

/-! Invariant preservation across any sequence of the core operations. -/

theorem applyOp_pres (db : DB) (op : Op) (hdb : WF db) (h1 : INV1p db) :
    WF (applyOp db op) ∧ INV1p (applyOp db op) := by
  cases op with
  | save inst => exact ⟨save_WF db inst hdb, save_INV1p db inst h1⟩
  | softDelete p => exact ⟨perform_destroy_WF db p hdb, perform_destroy_INV1p db p h1⟩
  | bulkUpload m name rows => exact bulk_upload_view_pres db m name rows hdb h1
  | bulkDelete invPk rows => exact bulk_delete_view_pres db invPk rows hdb h1

theorem applyOps_pres (db : DB) (ops : List Op) (hdb : WF db) (h1 : INV1p db) :
    WF (ops.foldl applyOp db) ∧ INV1p (ops.foldl applyOp db) := by
  induction ops generalizing db with
  | nil => exact ⟨hdb, h1⟩
  | cons op ops ih =>
    obtain ⟨w, i⟩ := applyOp_pres db op hdb h1
    exact ih (applyOp db op) w i

/-- The pairwise form of INV-1 plus key uniqueness bounds the live count. -/
theorem liveCount_le_one (db : DB) (hdb : WF db) (h1 : INV1p db) (m i : Nat) :
    liveCount db m i ≤ 1 := by
  unfold liveCount
  cases hF : db.listings.filter (fun l =>
      l.is_live && db.invMerchant l.inventory == some m && l.item == i) with
  | nil => simp
  | cons a tail =>
    cases tail with
    | nil => simp
    | cons b rest =>
      exfalso
      have ha : a ∈ db.listings.filter (fun l =>
          l.is_live && db.invMerchant l.inventory == some m && l.item == i) := by
        rw [hF]; simp
      have hb : b ∈ db.listings.filter (fun l =>
          l.is_live && db.invMerchant l.inventory == some m && l.item == i) := by
        rw [hF]; simp
      have hap := List.of_mem_filter ha
      have hbp := List.of_mem_filter hb
      simp only [Bool.and_eq_true, beq_iff_eq] at hap hbp
      have hpk : a.pk = b.pk :=
        h1 a (List.mem_of_mem_filter ha) b (List.mem_of_mem_filter hb)
          hap.1.1 hbp.1.1 (by rw [hap.2, hbp.2]) (by rw [hap.1.2, hbp.1.2])
          (by rw [hap.1.2]; rfl)
      have hnd : ((db.listings.filter (fun l =>
          l.is_live && db.invMerchant l.inventory == some m && l.item == i)).map
            (fun l => l.pk)).Nodup :=
        List.Nodup.sublist (List.Sublist.map _ (List.filter_sublist _)) hdb.1
      rw [hF, List.map_cons, List.map_cons] at hnd
      exact (List.nodup_cons.mp hnd).1 (hpk ▸ List.mem_cons_self _ _)

/-! The projector (resync) lemmas. -/

theorem livePks_liveinv (db : DB) (x : List LiveInventory) (m : Nat) :
    DB.livePks { db with live_inventories := x } m = db.livePks m := rfl

theorem resync_listings (db : DB) (m : Nat) :
    (LiveInventory.update_live_inventory db m).listings = db.listings := rfl

theorem resync_livePks (db : DB) (m m' : Nat) :
    (LiveInventory.update_live_inventory db m).livePks m' = db.livePks m' := rfl

/-- After resync of merchant m, the member set of LiveInventory(m) is the
set of live listings of m, provided the row exists. -/
theorem resync_members (db : DB) (m : Nat) (h : (db.findLiveInventory m).isSome) :
    (LiveInventory.update_live_inventory db m).members m = db.livePks m := by
  unfold DB.members DB.findLiveInventory LiveInventory.update_live_inventory
  rw [find?_map_pres (fun li => by split <;> rfl)]
  unfold DB.findLiveInventory at h
  cases hf : db.live_inventories.find? (fun li => li.merchant == m) with
  | none => rw [hf] at h; cases h
  | some li =>
    have hpred := List.find?_some hf
    simp only [Option.map_some']
    rw [if_pos hpred]
    rfl

/-- Resync is idempotent: a second resync with no intervening write
recomputes the same live set and rewrites the same row. -/
theorem resync_idem (db : DB) (m : Nat) :
    LiveInventory.update_live_inventory (LiveInventory.update_live_inventory db m) m =
      LiveInventory.update_live_inventory db m := by
  unfold LiveInventory.update_live_inventory
  congr 1
  rw [List.map_map]
  refine List.map_congr_left ?_
  intro li _
  simp only [Function.comp]
  by_cases h : li.merchant == m
  · rw [if_pos h]
    dsimp only
    rw [if_pos h]
    rfl
  · rw [if_neg h, if_neg h]

/-! Characterization of the admin bulk-delete view. -/

/-- At most one Listing row per (inventory, item) pair, the condition
under which Listing.objects.get inside the bulk-delete loop cannot raise
MultipleObjectsReturned. -/
def UniquePerPair (db : DB) : Prop :=
  ∀ l1 ∈ db.listings, ∀ l2 ∈ db.listings,
    l1.inventory = l2.inventory → l1.item = l2.item → l1.pk = l2.pk

/-- Every LiveInventory member references an existing Listing row. -/
def MembersRef (db : DB) : Prop :=
  ∀ li ∈ db.live_inventories, ∀ p ∈ li.listings, p ∈ db.listings.map (fun l => l.pk)

instance decidableUniquePerPair (db : DB) : Decidable (UniquePerPair db) := by
  unfold UniquePerPair
  infer_instance

instance decidableMembersRef (db : DB) : Decidable (MembersRef db) := by
  unfold MembersRef
  infer_instance

theorem filter_ne_pk_length {xs : List Listing} {p : Nat}
    (hnd : (xs.map (fun l => l.pk)).Nodup) (hmem : ∃ l ∈ xs, l.pk = p) :
    (xs.filter (fun x => !(x.pk == p))).length + 1 = xs.length := by
  induction xs with
  | nil => rcases hmem with ⟨l, h, _⟩; cases h
  | cons a as ih =>
    rw [List.map_cons, List.nodup_cons] at hnd
    by_cases hap : a.pk = p
    · have hall : ∀ x ∈ as, (!(x.pk == p)) = true := by
        intro x hx
        have hne : x.pk ≠ p := by
          intro he
          exact hnd.1 (by rw [hap, ← he]; exact List.mem_map_of_mem _ hx)
        simp [hne]
      rw [List.filter_cons_of_neg (by simp [hap]), List.filter_eq_self.mpr hall]
      simp
    · have hmem' : ∃ l ∈ as, l.pk = p := by
        rcases hmem with ⟨l, hl, hpk⟩
        rcases List.mem_cons.mp hl with rfl | hl'
        · exact absurd hpk hap
        · exact ⟨l, hl', hpk⟩
      rw [List.filter_cons_of_pos (by simp [hap])]
      have := ih hnd.2 hmem'
      simp only [List.length_cons]
      omega

theorem pair_filter_le_one (db : DB) (hdb : WF db) (hu : UniquePerPair db)
    (invPk itemPk : Nat) :
    (db.listings.filter (fun l => l.inventory == invPk && l.item == itemPk)).length ≤ 1 := by
  cases hF : db.listings.filter (fun l => l.inventory == invPk && l.item == itemPk) with
  | nil => simp
  | cons a tail =>
    cases tail with
    | nil => simp
    | cons b rest =>
      exfalso
      have ha : a ∈ db.listings.filter (fun l => l.inventory == invPk && l.item == itemPk) := by
        rw [hF]; simp
      have hb : b ∈ db.listings.filter (fun l => l.inventory == invPk && l.item == itemPk) := by
        rw [hF]; simp
      have hap := List.of_mem_filter ha
      have hbp := List.of_mem_filter hb
      simp only [Bool.and_eq_true, beq_iff_eq] at hap hbp
      have hpk : a.pk = b.pk :=
        hu a (List.mem_of_mem_filter ha) b (List.mem_of_mem_filter hb)
          (by rw [hap.1, hbp.1]) (by rw [hap.2, hbp.2])
      have hnd : ((db.listings.filter (fun l =>
          l.inventory == invPk && l.item == itemPk)).map (fun l => l.pk)).Nodup :=
        List.Nodup.sublist (List.Sublist.map _ (List.filter_sublist _)) hdb.1
      rw [hF, List.map_cons, List.map_cons] at hnd
      exact (List.nodup_cons.mp hnd).1 (hpk ▸ List.mem_cons_self _ _)

theorem delete_listing_unique {db : DB} {p : Nat} (hu : UniquePerPair db) :
    UniquePerPair (delete_listing db p) := by
  intro l1 h1 l2 h2 hinv hit
  exact hu l1 (List.mem_of_mem_filter h1) l2 (List.mem_of_mem_filter h2) hinv hit

theorem delete_listing_members_ref {db : DB} {p : Nat} (h : MembersRef db) :
    MembersRef (delete_listing db p) := by
  intro li hli q hq
  rcases List.mem_map.mp hli with ⟨li0, hli0, hgl⟩
  subst hgl
  simp only at hq
  have hq0 : q ∈ li0.listings := List.mem_of_mem_filter hq
  have hqp : q ≠ p := by
    have := List.of_mem_filter hq
    simpa using this
  rcases List.mem_map.mp (h li0 hli0 q hq0) with ⟨row, hrow, hrpk⟩
  refine List.mem_map.mpr ⟨row, ?_, hrpk⟩
  refine List.mem_filter.mpr ⟨hrow, ?_⟩
  simp [hrpk, hqp]

theorem delete_listing_items (db : DB) (p : Nat) :
    (delete_listing db p).items = db.items := rfl

/-- Induction workhorse for the bulk-delete loop: under key uniqueness
the loop never aborts, the deleted counter matches the rows removed, the
item table is untouched, not-found ids resolve to no item, surviving rows
were present before, and all structural invariants persist. -/
theorem bulk_delete_rows_spec (invPk : Nat) (rows : List (Option Nat)) :
    ∀ st : BulkDeleteState, WF st.db → UniquePerPair st.db → MembersRef st.db →
    (bulk_delete_rows invPk rows st).2 = none ∧
    (bulk_delete_rows invPk rows st).1.deleted +
        (bulk_delete_rows invPk rows st).1.db.listings.length =
      st.deleted + st.db.listings.length ∧
    (bulk_delete_rows invPk rows st).1.db.items = st.db.items ∧
    (∀ i ∈ (bulk_delete_rows invPk rows st).1.not_found,
      i ∈ st.not_found ∨ st.db.items.find? (fun it => it.item_id == i) = none) ∧
    (∀ l ∈ (bulk_delete_rows invPk rows st).1.db.listings, l ∈ st.db.listings) ∧
    WF (bulk_delete_rows invPk rows st).1.db ∧
    UniquePerPair (bulk_delete_rows invPk rows st).1.db ∧
    MembersRef (bulk_delete_rows invPk rows st).1.db := by
  induction rows with
  | nil =>
    intro st hw hu hm
    exact ⟨rfl, rfl, rfl, fun i hi => Or.inl hi, fun l hl => hl, hw, hu, hm⟩
  | cons r rs ih =>
    intro st hw hu hm
    rw [bulk_delete_rows]
    cases r with
    | none => exact ih st hw hu hm
    | some item_id =>
      simp only [bulk_delete_row]
      cases hfind : st.db.items.find? (fun it => it.item_id == item_id) with
      | none =>
        dsimp only
        obtain ⟨c1, c2, c3, c4, c5, c6, c7, c8⟩ :=
          ih ⟨st.db, st.deleted, st.not_found ++ [item_id]⟩ hw hu hm
        refine ⟨c1, c2, c3, ?_, c5, c6, c7, c8⟩
        intro i hi
        rcases c4 i hi with hi' | hi'
        · rcases List.mem_append.mp hi' with h | h
          · exact Or.inl h
          · right
            rw [List.mem_singleton.mp h]
            exact hfind
        · exact Or.inr hi'
      | some item =>
        dsimp only
        cases hF : st.db.listings.filter
            (fun l => l.inventory == invPk && l.item == item.item_id) with
        | nil =>
          dsimp only
          exact ih st hw hu hm
        | cons l tail =>
          cases tail with
          | nil =>
            dsimp only
            have hlmem : l ∈ st.db.listings :=
              List.mem_of_mem_filter (by rw [hF]; exact List.mem_singleton_self l)
            obtain ⟨c1, c2, c3, c4, c5, c6, c7, c8⟩ :=
              ih ⟨delete_listing st.db l.pk, st.deleted + 1, st.not_found⟩
                (delete_listing_WF _ _ hw) (delete_listing_unique hu)
                (delete_listing_members_ref hm)
            have hlen : (delete_listing st.db l.pk).listings.length + 1 =
                st.db.listings.length :=
              filter_ne_pk_length hw.1 ⟨l, hlmem, rfl⟩
            refine ⟨c1, ?_, c3, c4, ?_, c6, c7, c8⟩
            · rw [c2]
              dsimp only
              omega
            · intro x hx
              exact List.mem_of_mem_filter (c5 x hx)
          | cons b rest =>
            exfalso
            have := pair_filter_le_one st.db hw hu invPk item.item_id
            rw [hF] at this
            simp at this

/-! Claim theorems. -/

/-- C1: for every merchant M and item I, after any sequence of the core
operations (single listing create or update via Listing.save, bulk CSV
upsert, soft delete, hard delete) applied to a well-formed store
satisfying INV-1, at most one Listing with is_live = true exists whose
inventory belongs to M and whose item is I. -/
theorem C1_live_uniqueness (db : DB) (ops : List Op) (hdb : WF db) (h1 : INV1p db)
    (m i : Nat) : liveCount (ops.foldl applyOp db) m i ≤ 1 := by
  obtain ⟨w, p⟩ := applyOps_pres db ops hdb h1
  exact liveCount_le_one _ w p m i

def dbC1 : DB :=
  ⟨[⟨1, 1, "inv", []⟩], [⟨5, "widget"⟩], [⟨1, 1, 5, 10, none, none, true, true⟩],
    [⟨1, [1]⟩]⟩

def opsC1 : List Op :=
  [.save ⟨none, 1, 5, 8, none, none, true, true⟩, .softDelete 1,
   .bulkUpload 1 "batch" [⟨"widget", 3, none, none⟩],
   .bulkDelete 1 [some 5, some 99]]

/-- Witness for C1 at a concrete store and operation sequence. -/
theorem C1_witness :
    WF dbC1 ∧ INV1p dbC1 ∧ liveCount (opsC1.foldl applyOp dbC1) 1 5 ≤ 1 :=
  ⟨by decide, by decide, C1_live_uniqueness dbC1 opsC1 (by decide) (by decide) 1 5⟩

def dbC2 : DB :=
  ⟨[⟨1, 1, "m1inv", []⟩], [⟨3, "gadget"⟩], [⟨2, 1, 3, 15, none, none, true, true⟩],
    [⟨1, [2]⟩]⟩

/-- C2 counterexample: after the committed write of a soft delete, the
listing stays a member of LiveInventory(1) although it is no longer live,
so LiveInventory does not equal the live set after every committed write
touching the listings of the merchant. -/
theorem C2_counterexample :
    2 ∈ (perform_destroy dbC2 2).1.members 1 ∧
    2 ∉ (perform_destroy dbC2 2).1.livePks 1 := by decide

/-- C2 amended: after resync(M) the member set of LiveInventory(M) equals
exactly the set of live listings of M (set equality, no extras and no
omissions), provided the LiveInventory row of M exists; equality after
every committed write does not hold. -/
theorem C2_resync_exact (db : DB) (m : Nat) (h : (db.findLiveInventory m).isSome)
    (p : Nat) :
    p ∈ (LiveInventory.update_live_inventory db m).members m ↔
      p ∈ (LiveInventory.update_live_inventory db m).livePks m := by
  rw [resync_members db m h, resync_livePks]

def dbC2w : DB :=
  ⟨[⟨6, 2, "m2inv", []⟩], [⟨4, "clip"⟩],
    [⟨4, 6, 4, 9, none, none, true, true⟩, ⟨5, 6, 4, 9, none, none, false, true⟩],
    [⟨2, [5]⟩]⟩

/-- Witness for C2 amended on a concrete stale cache. -/
theorem C2_witness :
    (dbC2w.findLiveInventory 2).isSome = true ∧
    (4 ∈ (LiveInventory.update_live_inventory dbC2w 2).members 2 ↔
      4 ∈ (LiveInventory.update_live_inventory dbC2w 2).livePks 2) :=
  ⟨by decide, C2_resync_exact dbC2w 2 (by decide) 4⟩

def dbC3 : DB := ⟨[⟨4, 7, "shop", []⟩], [⟨6, "lamp"⟩], [], []⟩

def instC3live : ListingInst := ⟨none, 4, 6, 20, none, none, true, true⟩

def instC3dead : ListingInst := ⟨none, 4, 6, 20, none, none, false, true⟩

/-- C3: Listing.save never returns normally.  On both the live and the
not-live path the row write succeeds (the fresh row with pk 1 is
persisted) and the call then raises NameError: models.py:116 references
the undefined name update_live_inventory on the live path, and
signals.py:39 references the undefined name models on the not-live
path. -/
theorem C3_save_always_raises :
    (Listing.save dbC3 instC3live).2 = some PyErr.nameError ∧
    (Listing.save dbC3 instC3dead).2 = some PyErr.nameError ∧
    (Listing.save dbC3 instC3live).1.findListing 1 ≠ none ∧
    (Listing.save dbC3 instC3dead).1.findListing 1 ≠ none := by decide

def dbC4 : DB :=
  ⟨[⟨2, 9, "storeA", []⟩], [⟨11, "chair"⟩], [⟨3, 2, 11, 30, none, none, true, true⟩],
    [⟨9, [3]⟩]⟩

def instC4B : ListingInst := ⟨none, 2, 11, 25, none, none, true, true⟩

/-- C4: supersession is broken.  With listing A (pk 3) live for
(merchant 9, item 11), saving a new live listing B for the same pair
demotes A, then raises NameError inside the recursive save of A
(signals.py:39), so B is never written: afterwards A.is_live = false,
no row for B exists, and zero live listings remain for the pair, against
the claimed A demoted, B live and exactly one live listing. -/
theorem C4_supersession_broken :
    (Listing.save dbC4 instC4B).2 = some PyErr.nameError ∧
    ((Listing.save dbC4 instC4B).1.findListing 3).map (fun l => l.is_live) = some false ∧
    (Listing.save dbC4 instC4B).1.listings.length = 1 ∧
    liveCount (Listing.save dbC4 instC4B).1 9 11 = 0 := by decide

def dbC5 : DB :=
  ⟨[⟨5, 12, "storeB", []⟩], [⟨14, "desk"⟩], [⟨6, 5, 14, 40, none, none, true, true⟩],
    [⟨12, [6]⟩]⟩

/-- C5: soft delete of a live listing (pk 6) marks the row inactive, and
its stored is_live flag does become false (through the destructive member
update of signals.py:31), but the listing is NOT removed from the
member set of LiveInventory(12) and the request aborts with NameError:
the removal branch of signals.py:36-40 is unreachable dead code. -/
theorem C5_soft_delete_leaves_member :
    (perform_destroy dbC5 6).2 = some PyErr.nameError ∧
    ((perform_destroy dbC5 6).1.findListing 6).map (fun l => l.is_active) = some false ∧
    ((perform_destroy dbC5 6).1.findListing 6).map (fun l => l.is_live) = some false ∧
    6 ∈ (perform_destroy dbC5 6).1.members 12 := by decide

def dbC6 : DB :=
  ⟨[⟨1, 21, "c6inv", []⟩],
    [⟨31, "alpha"⟩, ⟨32, "beta"⟩, ⟨34, "delta"⟩, ⟨35, "epsilon"⟩], [], []⟩

def rowsC6 : List UploadRow :=
  [⟨"alpha", 1, none, none⟩, ⟨"beta", 2, none, none⟩, ⟨"gamma", 3, none, none⟩,
   ⟨"delta", 4, none, none⟩, ⟨"epsilon", 5, none, none⟩]

/-- C6 counterexample: a five-row batch whose third row references the
unknown item gamma yields zero successes, five error entries and zero
persisted listings, not four successes, one error and four persisted
listings. -/
theorem C6_counterexample :
    ¬ ((bulk_upload_view dbC6 21 "c6inv" rowsC6).2.created +
          (bulk_upload_view dbC6 21 "c6inv" rowsC6).2.updated = 4 ∧
        (bulk_upload_view dbC6 21 "c6inv" rowsC6).2.error_rows.length = 1 ∧
        (bulk_upload_view dbC6 21 "c6inv" rowsC6).1.listings.length = 4) := by decide

/-- C6 amended: the bulk upload runs inside one batch-wide transaction
with a per-row savepoint inside update_or_create; a row with an
unresolvable item is recorded in the error list (without a reason code)
and does not abort the batch, but every row with a resolvable item also
fails (Listing.save raises NameError) and is rolled back, so the batch
reports zero created and zero updated rows, records every row as an
error, and persists no listing. -/
theorem C6_bulk_upload_no_partial_success (db : DB) (m : Nat) (name : String)
    (rows : List UploadRow) :
    (bulk_upload_view db m name rows).2.created = 0 ∧
    (bulk_upload_view db m name rows).2.updated = 0 ∧
    (bulk_upload_view db m name rows).2.error_rows = rows ∧
    (bulk_upload_view db m name rows).1.listings = db.listings := by
  obtain ⟨h1, h2, h3⟩ := bulk_upload_view_spec db m name rows
  exact ⟨by rw [h3], by rw [h3], by rw [h3], h1⟩

def dbC7 : DB :=
  ⟨[⟨3, 15, "storeC", []⟩], [⟨17, "table"⟩], [⟨8, 3, 17, 50, none, none, true, true⟩],
    [⟨15, [8]⟩]⟩

def instC7B : ListingInst := ⟨none, 3, 17, 45, none, none, true, true⟩

/-- C7 counterexample: the mark-live sequence is not all-or-nothing.  The
failure during the demote step (the NameError raised inside the recursive
save of the old listing) leaves the old listing demoted while the new one
was never made live: a partial flip is visible in the committed state. -/
theorem C7_counterexample :
    (Listing.save dbC7 instC7B).2.isSome = true ∧
    ((Listing.save dbC7 instC7B).1.findListing 8).map (fun l => l.is_live) = some false ∧
    (∀ l ∈ (Listing.save dbC7 instC7B).1.listings, l.is_live = false) := by decide

/-- C7 amended: a failure during the demote or activate step never leaves
a (merchant, item) pair with two live-flagged listings, but the partial
flip with the old listing demoted and the new one not live is visible
after the failed operation. -/
theorem C7_no_double_live (db : DB) (inst : ListingInst) (hdb : WF db) (h1 : INV1p db)
    (m i : Nat) : liveCount (Listing.save db inst).1 m i ≤ 1 :=
  liveCount_le_one _ (save_WF db inst hdb) (save_INV1p db inst h1) m i

def dbC7w : DB :=
  ⟨[⟨9, 22, "storeE", []⟩], [⟨19, "shelf"⟩], [⟨12, 9, 19, 60, none, none, true, true⟩],
    [⟨22, [12]⟩]⟩

def instC7w : ListingInst := ⟨none, 9, 19, 55, none, none, true, true⟩

/-- Witness for C7 amended at a concrete failing mark-live call. -/
theorem C7_witness :
    WF dbC7w ∧ INV1p dbC7w ∧ liveCount (Listing.save dbC7w instC7w).1 22 19 ≤ 1 :=
  ⟨by decide, by decide, C7_no_double_live dbC7w instC7w (by decide) (by decide) 22 19⟩

/-- C8 counterexample: a Listing instantiated without an explicit live
flag carries the model field default is_live = True (models.py:69), so a
newly created listing is live, not not-live. -/
theorem C8_counterexample : ¬ (Listing.newWithDefaults 1 2 10).is_live = false := by decide

/-- C8 amended: the initial live status of a newly created Listing is
live (is_live = true) unless the caller explicitly creates it not live. -/
theorem C8_default_live (inventory item : Nat) (price : Int) :
    (Listing.newWithDefaults inventory item price).is_live = true := rfl

/-- C9: resync is idempotent: running the LiveInventory update twice for
the same merchant with no intervening write leaves exactly the state of
the first run. -/
theorem C9_resync_idempotent (db : DB) (m : Nat) :
    LiveInventory.update_live_inventory (LiveInventory.update_live_inventory db m) m =
      LiveInventory.update_live_inventory db m := resync_idem db m

def dbC10 : DB :=
  ⟨[⟨7, 30, "storeD", []⟩], [⟨41, "mouse"⟩, ⟨42, "keyboard"⟩],
    [⟨10, 7, 41, 5, none, none, false, true⟩, ⟨11, 7, 42, 6, none, none, true, true⟩],
    [⟨30, [10, 11]⟩]⟩

/-- C10 counterexample: the bulk hard delete triggers no resync.  After
deleting the live listing 11, the merchant 30 cache still holds the stale
member 10 (left there by an earlier soft delete), so the post-state is
not a fixed point of resync, while the claimed resync would have made it
one. -/
theorem C10_counterexample :
    (bulk_delete_view dbC10 7 [some 42]).1 ≠
      LiveInventory.update_live_inventory (bulk_delete_view dbC10 7 [some 42]).1 30 := by
  decide

/-- C10 amended: under at most one listing per (inventory, item), the
bulk hard delete never aborts, deletes rows outright (every surviving row
was present and the deleted counter equals the number of removed rows),
collects exactly the unresolvable item ids in not_found, and although no
resync is triggered, the relational cascade on the m2m rows keeps every
LiveInventory member pointing at an existing row, so a deleted listing no
longer appears in any LiveInventory. -/
theorem C10_bulk_delete_spec (db : DB) (invPk : Nat) (rows : List (Option Nat))
    (hinv : (db.findInventory invPk).isSome = true) (hdb : WF db)
    (hu : UniquePerPair db) (hmem : MembersRef db) :
    (bulk_delete_view db invPk rows).2.2 = none ∧
    (bulk_delete_view db invPk rows).2.1.deleted +
        (bulk_delete_view db invPk rows).1.listings.length = db.listings.length ∧
    (∀ i ∈ (bulk_delete_view db invPk rows).2.1.not_found,
      db.items.find? (fun it => it.item_id == i) = none) ∧
    (∀ l ∈ (bulk_delete_view db invPk rows).1.listings, l ∈ db.listings) ∧
    (∀ li ∈ (bulk_delete_view db invPk rows).1.live_inventories, ∀ p ∈ li.listings,
      p ∈ (bulk_delete_view db invPk rows).1.listings.map (fun l => l.pk)) := by
  obtain ⟨c1, c2, c3, c4, c5, c6, c7, c8⟩ :=
    bulk_delete_rows_spec invPk rows ⟨db, 0, []⟩ hdb hu hmem
  unfold bulk_delete_view
  rw [if_pos hinv]
  rcases hrun : bulk_delete_rows invPk rows ⟨db, 0, []⟩ with ⟨st, e⟩
  rw [hrun] at c1 c2 c3 c4 c5 c6 c7 c8
  cases e with
  | some e0 => cases c1
  | none =>
    dsimp only
    refine ⟨rfl, ?_, ?_, c5, c8⟩
    · simpa using c2
    · intro i hi
      rcases c4 i hi with h | h
      · cases h
      · exact h

def dbC10w : DB :=
  ⟨[⟨8, 33, "storeF", []⟩], [⟨51, "pen"⟩, ⟨52, "ink"⟩],
    [⟨20, 8, 51, 2, none, none, false, true⟩, ⟨21, 8, 52, 3, none, none, true, true⟩],
    [⟨33, [20, 21]⟩]⟩

/-- Witness for C10 amended at a concrete batch. -/
theorem C10_witness :
    (dbC10w.findInventory 8).isSome = true ∧ WF dbC10w ∧ UniquePerPair dbC10w ∧
    MembersRef dbC10w ∧
    (bulk_delete_view dbC10w 8 [some 52, some 99, none]).2.2 = none ∧
    (bulk_delete_view dbC10w 8 [some 52, some 99, none]).2.1.deleted +
        (bulk_delete_view dbC10w 8 [some 52, some 99, none]).1.listings.length =
      dbC10w.listings.length :=
  ⟨by decide, by decide, by decide, by decide,
    (C10_bulk_delete_spec dbC10w 8 [some 52, some 99, none] (by decide) (by decide)
      (by decide) (by decide)).1,
    (C10_bulk_delete_spec dbC10w 8 [some 52, some 99, none] (by decide) (by decide)
      (by decide) (by decide)).2.1⟩

end SnapIt
